import Mathlib

/-!
Verification of the EventManager library (EventManager.h / EventManager.cpp):
a dual-priority ring-buffer event queue plus a listener registry with
enable/disable and default-handler semantics.

The embedding follows the C++ source closely:
* C `int` event codes and parameters become `Int` (only equality is used).
* Array indices and counts become `Nat`; all index arithmetic in the source is
  `(x + 1) % kEventQueueSize` on indices kept below the capacity, so no
  machine-width wraparound is ever exercised.
* Function pointers (listener callbacks) become `Nat`, with `0` playing the
  role of the null pointer, matching the source's `!listener` / `!= 0` tests.
* The fixed C arrays become `List`s of the corresponding fixed length, read
  with `List.getD` and written with `List.set`.
* Callback invocation is modelled by an explicit invocation trace: each
  dispatch returns, besides the handled count, the ordered list of
  `(callback, eventCode, param)` invocations it performed.  Listener bodies
  are assumed not to mutate the dispatcher (they are external code).
* The interrupt-masking (SREG/cli/sei) bracketing is control-flow-invisible
  sequential code and is dropped; the `mInterruptSafeMode` flag is kept as
  inert state.
-/

/-- `EVENTMANAGER_EVENT_QUEUE_SIZE` / `EventQueue::kEventQueueSize` (default 8). -/
def kEventQueueSize : Nat := 8

/-- `EVENTMANAGER_LISTENER_LIST_SIZE` / `ListenerList::kMaxListeners` (default 8). -/
def kMaxListeners : Nat := 8

/-- `EventManager::kEventNone` (the first enumerator, value 200). -/
def kEventNone : Int := 200

/-- One invocation of a callback: (callback, eventCode, param). -/
abbrev Invocation := Nat × Int × Int

/-- `EventQueue::EventElement`: an event is a (code, param) pair of C ints. -/
structure EventElement where
  code : Int
  param : Int
deriving DecidableEq, Repr

/-- `EventManager::EventQueue`: fixed-capacity ring buffer of events. -/
structure EventQueue where
  mEventQueue : List EventElement
  mEventQueueHead : Nat
  mEventQueueTail : Nat
  mNumEvents : Nat
  mInterruptSafeMode : Bool
deriving DecidableEq, Repr

/-- `EventQueue::EventQueue(beSafe)`: head = tail = count = 0 and every slot
cleared to `(kEventNone, 0)`. -/
def EventQueue.init (beSafe : Bool) : EventQueue :=
  ⟨List.replicate kEventQueueSize ⟨kEventNone, 0⟩, 0, 0, 0, beSafe⟩

/-- `EventQueue::isEmpty()`: `mNumEvents == 0`. -/
def EventQueue.isEmpty (q : EventQueue) : Bool :=
  q.mNumEvents == 0

/-- `EventQueue::isFull()`: `mNumEvents == kEventQueueSize`. -/
def EventQueue.isFull (q : EventQueue) : Bool :=
  q.mNumEvents == kEventQueueSize

/-- `EventQueue::getNumEvents()`. -/
def EventQueue.getNumEvents (q : EventQueue) : Nat :=
  q.mNumEvents

/-- `EventQueue::queueEvent(eventCode, eventParam)`: if not full, store the
event at the tail slot, advance the tail modulo the capacity and bump the
count; report whether the event was stored. -/
def EventQueue.queueEvent (q : EventQueue) (eventCode eventParam : Int) :
    Bool × EventQueue :=
  if q.isFull then
    (false, q)
  else
    (true,
      ⟨q.mEventQueue.set q.mEventQueueTail ⟨eventCode, eventParam⟩,
       q.mEventQueueHead,
       (q.mEventQueueTail + 1) % kEventQueueSize,
       q.mNumEvents + 1,
       q.mInterruptSafeMode⟩)

/-- `EventQueue::popEvent(&eventCode, &eventParam)`: if empty, return `false`
touching nothing; otherwise read the head slot, clear its code to
`kEventNone`, advance the head modulo the capacity and drop the count. -/
def EventQueue.popEvent (q : EventQueue) : Option (Int × Int) × EventQueue :=
  if q.isEmpty then
    (none, q)
  else
    let e := q.mEventQueue.getD q.mEventQueueHead ⟨kEventNone, 0⟩
    (some (e.code, e.param),
      ⟨q.mEventQueue.set q.mEventQueueHead ⟨kEventNone, e.param⟩,
       (q.mEventQueueHead + 1) % kEventQueueSize,
       q.mEventQueueTail,
       q.mNumEvents - 1,
       q.mInterruptSafeMode⟩)

/-- The logical content of the ring buffer: `n` events read circularly
starting at slot `h % kEventQueueSize`. -/
def readFrom (arr : List EventElement) (h : Nat) : Nat → List (Int × Int)
  | 0 => []
  | n + 1 =>
    let e := arr.getD (h % kEventQueueSize) ⟨kEventNone, 0⟩
    (e.code, e.param) :: readFrom arr (h + 1) n

/-- The queue's events in FIFO order (head first). -/
def EventQueue.toList (q : EventQueue) : List (Int × Int) :=
  readFrom q.mEventQueue q.mEventQueueHead q.mNumEvents

/-- Reachability invariant of the ring buffer: fixed storage length, head in
range, count within capacity, and the tail sitting `count` slots past the
head (circularly). -/
def EventQueue.WF (q : EventQueue) : Prop :=
  q.mEventQueue.length = kEventQueueSize ∧
  q.mEventQueueHead < kEventQueueSize ∧
  q.mNumEvents ≤ kEventQueueSize ∧
  q.mEventQueueTail = (q.mEventQueueHead + q.mNumEvents) % kEventQueueSize

instance (q : EventQueue) : Decidable q.WF := by
  unfold EventQueue.WF; infer_instance

-- Generic getD/set helper lemmas

theorem getD_set_self {α : Type} (as : List α) (i : Nat) (x d : α)
    (h : i < as.length) : (as.set i x).getD i d = x := by
  induction as generalizing i with
  | nil => simp at h
  | cons a as ih =>
    cases i with
    | zero => rfl
    | succ n =>
      simp only [List.length_cons, Nat.succ_lt_succ_iff] at h
      simpa using ih n h

theorem getD_set_of_ne {α : Type} (as : List α) (i j : Nat) (x d : α)
    (h : i ≠ j) : (as.set i x).getD j d = as.getD j d := by
  induction as generalizing i j with
  | nil => rfl
  | cons a as ih =>
    cases i with
    | zero =>
      cases j with
      | zero => exact absurd rfl h
      | succ m => rfl
    | succ n =>
      cases j with
      | zero => rfl
      | succ m =>
        have : n ≠ m := by omega
        simpa using ih n m this

theorem readFrom_length (arr : List EventElement) (h n : Nat) :
    (readFrom arr h n).length = n := by
  induction n generalizing h with
  | zero => rfl
  | succ m ih => simp [readFrom, ih]

theorem readFrom_congr (arr : List EventElement) (n : Nat) :
    ∀ h h', h % kEventQueueSize = h' % kEventQueueSize →
      readFrom arr h n = readFrom arr h' n := by
  induction n with
  | zero => intro h h' _; rfl
  | succ m ih =>
    intro h h' hmod
    simp only [readFrom, hmod]
    congr 1
    exact ih (h + 1) (h' + 1)
      (by simp only [kEventQueueSize] at hmod ⊢; omega)

theorem readFrom_set_ne (arr : List EventElement) (j : Nat) (x : EventElement)
    (n : Nat) :
    ∀ h, (∀ i, i < n → (h + i) % kEventQueueSize ≠ j) →
      readFrom (arr.set j x) h n = readFrom arr h n := by
  induction n with
  | zero => intro h _; rfl
  | succ m ih =>
    intro h hne
    simp only [readFrom]
    have h0 : h % kEventQueueSize ≠ j := by
      have := hne 0 (by omega); simpa using this
    rw [getD_set_of_ne _ _ _ _ _ (fun he => h0 he.symm)]
    congr 1
    exact ih (h + 1) (fun i hi => by
      have := hne (i + 1) (by omega)
      simpa [Nat.add_assoc, Nat.add_comm 1 i] using this)

theorem readFrom_snoc (arr : List EventElement) (n : Nat) :
    ∀ h, readFrom arr h (n + 1) =
      readFrom arr h n ++
        [((arr.getD ((h + n) % kEventQueueSize) ⟨kEventNone, 0⟩).code,
          (arr.getD ((h + n) % kEventQueueSize) ⟨kEventNone, 0⟩).param)] := by
  induction n with
  | zero => intro h; simp [readFrom]
  | succ m ih =>
    intro h
    rw [readFrom]
    rw [ih (h + 1)]
    simp [readFrom, Nat.add_assoc, Nat.add_comm 1 m]

-- Core queue lemmas: submit appends, pop takes from the front

theorem queueEvent_eq_of_not_full (q : EventQueue) (c p : Int)
    (hnf : q.mNumEvents ≠ kEventQueueSize) :
    q.queueEvent c p =
      (true,
        ⟨q.mEventQueue.set q.mEventQueueTail ⟨c, p⟩,
         q.mEventQueueHead,
         (q.mEventQueueTail + 1) % kEventQueueSize,
         q.mNumEvents + 1,
         q.mInterruptSafeMode⟩) := by
  simp [EventQueue.queueEvent, EventQueue.isFull, hnf]

theorem queueEvent_of_not_full (q : EventQueue) (c p : Int) (hwf : q.WF)
    (hnf : q.mNumEvents ≠ kEventQueueSize) :
    (q.queueEvent c p).1 = true ∧
    (q.queueEvent c p).2.WF ∧
    (q.queueEvent c p).2.toList = q.toList ++ [(c, p)] ∧
    (q.queueEvent c p).2.mNumEvents = q.mNumEvents + 1 := by
  obtain ⟨hlen, hhead, hcnt, htail⟩ := hwf
  rw [queueEvent_eq_of_not_full q c p hnf]
  refine ⟨rfl, ⟨by simpa using hlen, by simpa using hhead, ?_, ?_⟩, ?_, rfl⟩
  · show q.mNumEvents + 1 ≤ kEventQueueSize
    simp only [kEventQueueSize] at *; omega
  · show (q.mEventQueueTail + 1) % kEventQueueSize =
      (q.mEventQueueHead + (q.mNumEvents + 1)) % kEventQueueSize
    simp only [htail, kEventQueueSize] at *; omega
  · show readFrom (q.mEventQueue.set q.mEventQueueTail ⟨c, p⟩)
        q.mEventQueueHead (q.mNumEvents + 1) = q.toList ++ [(c, p)]
    rw [readFrom_snoc]
    rw [readFrom_set_ne]
    · unfold EventQueue.toList
      congr 1
      have htl : (q.mEventQueueHead + q.mNumEvents) % kEventQueueSize =
          q.mEventQueueTail := htail.symm
      rw [htl, getD_set_self]
      rw [hlen, htail]
      simp only [kEventQueueSize]; omega
    · intro i hi
      rw [htail]
      simp only [kEventQueueSize] at *
      omega

theorem popEvent_eq_of_not_empty (q : EventQueue) (hne : q.mNumEvents ≠ 0) :
    q.popEvent =
      (some ((q.mEventQueue.getD q.mEventQueueHead ⟨kEventNone, 0⟩).code,
             (q.mEventQueue.getD q.mEventQueueHead ⟨kEventNone, 0⟩).param),
        ⟨q.mEventQueue.set q.mEventQueueHead
           ⟨kEventNone,
            (q.mEventQueue.getD q.mEventQueueHead ⟨kEventNone, 0⟩).param⟩,
         (q.mEventQueueHead + 1) % kEventQueueSize,
         q.mEventQueueTail,
         q.mNumEvents - 1,
         q.mInterruptSafeMode⟩) := by
  simp [EventQueue.popEvent, EventQueue.isEmpty, hne]

theorem popEvent_of_not_empty (q : EventQueue) (hwf : q.WF)
    (hne : q.mNumEvents ≠ 0) :
    ∃ e rest, q.toList = e :: rest ∧
      (q.popEvent).1 = some e ∧
      (q.popEvent).2.WF ∧
      (q.popEvent).2.toList = rest ∧
      (q.popEvent).2.mNumEvents = q.mNumEvents - 1 := by
  obtain ⟨hlen, hhead, hcnt, htail⟩ := hwf
  obtain ⟨m, hm⟩ : ∃ m, q.mNumEvents = m + 1 := ⟨q.mNumEvents - 1, by omega⟩
  rw [popEvent_eq_of_not_empty q hne]
  refine ⟨((q.mEventQueue.getD q.mEventQueueHead ⟨kEventNone, 0⟩).code,
          (q.mEventQueue.getD q.mEventQueueHead ⟨kEventNone, 0⟩).param),
    readFrom q.mEventQueue (q.mEventQueueHead + 1) m, ?_, rfl, ?_, ?_, rfl⟩
  · show readFrom q.mEventQueue q.mEventQueueHead q.mNumEvents = _
    rw [hm, readFrom]
    have hmod : q.mEventQueueHead % kEventQueueSize = q.mEventQueueHead :=
      Nat.mod_eq_of_lt hhead
    rw [hmod]
  · refine ⟨by simpa using hlen, ?_, ?_, ?_⟩
    · show (q.mEventQueueHead + 1) % kEventQueueSize < kEventQueueSize
      simp only [kEventQueueSize]; omega
    · show q.mNumEvents - 1 ≤ kEventQueueSize
      simp only [kEventQueueSize] at *; omega
    · show q.mEventQueueTail =
        ((q.mEventQueueHead + 1) % kEventQueueSize + (q.mNumEvents - 1)) %
          kEventQueueSize
      simp only [htail, hm, kEventQueueSize] at *; omega
  · show readFrom
        (q.mEventQueue.set q.mEventQueueHead
          ⟨kEventNone,
           (q.mEventQueue.getD q.mEventQueueHead ⟨kEventNone, 0⟩).param⟩)
        ((q.mEventQueueHead + 1) % kEventQueueSize) (q.mNumEvents - 1) = _
    rw [hm]
    simp only [Nat.add_sub_cancel]
    rw [readFrom_congr _ m ((q.mEventQueueHead + 1) % kEventQueueSize)
      (q.mEventQueueHead + 1)
      (by simp only [kEventQueueSize]; omega)]
    exact readFrom_set_ne q.mEventQueue q.mEventQueueHead _ m
      (q.mEventQueueHead + 1)
      (fun i hi => by
        simp only [kEventQueueSize] at *
        omega)

theorem popEvent_of_empty (q : EventQueue) (he : q.mNumEvents = 0) :
    q.popEvent = (none, q) := by
  simp [EventQueue.popEvent, EventQueue.isEmpty, he]

/-! ## Listener registry (`EventManager::ListenerList`) -/

/-- `ListenerList::ListenerItem`: callback (function pointer, `0` = null),
event code, enabled flag. -/
structure ListenerItem where
  callback : Nat
  eventCode : Int
  enabled : Bool
deriving DecidableEq, Repr

/-- `EventManager::ListenerList`: fixed table of listeners plus the optional
default callback.  `mListeners` models the fixed C array (length
`kMaxListeners`); slots at positions `≥ mNumListeners` are dead storage. -/
structure ListenerList where
  mNumListeners : Nat
  mListeners : List ListenerItem
  mDefaultCallback : Nat
  mDefaultCallbackEnabled : Bool
deriving DecidableEq, Repr

/-- `ListenerList::ListenerList()`: sets `mNumListeners = 0` and
`mDefaultCallback = 0`.  The array contents and `mDefaultCallbackEnabled` are
left uninitialized by the constructor, so they are parameters here. -/
def ListenerList.init (arr : List ListenerItem) (en : Bool) : ListenerList :=
  ⟨0, arr, 0, en⟩

/-- `ListenerList::isEmpty()`. -/
def ListenerList.isEmpty (l : ListenerList) : Bool :=
  l.mNumListeners == 0

/-- `ListenerList::isFull()`. -/
def ListenerList.isFull (l : ListenerList) : Bool :=
  l.mNumListeners == kMaxListeners

/-- `ListenerList::numListeners()`. -/
def ListenerList.numListeners (l : ListenerList) : Nat :=
  l.mNumListeners

/-- The live entries of the table: positions `[0, mNumListeners)`. -/
def ListenerList.live (l : ListenerList) : List ListenerItem :=
  l.mListeners.take l.mNumListeners

/-- Index of the first entry of `es` satisfying `p`, shifted by `i`:
models the search loops of `ListenerList` (return `-1` becomes `none`). -/
def searchIdx : List ListenerItem → (ListenerItem → Bool) → Nat → Option Nat
  | [], _, _ => none
  | it :: rest, p, i => if p it then some i else searchIdx rest p (i + 1)

/-- `ListenerList::searchListeners(eventCode, listener)`: first index
`i < mNumListeners` with matching event code and callback. -/
def ListenerList.searchListeners (l : ListenerList) (eventCode : Int)
    (listener : Nat) : Option Nat :=
  searchIdx (l.mListeners.take l.mNumListeners)
    (fun it => it.eventCode == eventCode && it.callback == listener) 0

/-- `ListenerList::searchListeners(listener)` (callback-only overload). -/
def ListenerList.searchListenersByCb (l : ListenerList) (listener : Nat) :
    Option Nat :=
  searchIdx (l.mListeners.take l.mNumListeners)
    (fun it => it.callback == listener) 0

/-- `ListenerList::addListener(eventCode, listener)`: reject a null callback
or a full table, otherwise append an enabled entry at position
`mNumListeners` and bump the count. -/
def ListenerList.addListener (l : ListenerList) (eventCode : Int)
    (listener : Nat) : Bool × ListenerList :=
  if listener == 0 then
    (false, l)
  else if l.isFull then
    (false, l)
  else
    (true,
      ⟨l.mNumListeners + 1,
       l.mListeners.set l.mNumListeners ⟨listener, eventCode, true⟩,
       l.mDefaultCallback,
       l.mDefaultCallbackEnabled⟩)

/-- The compaction loop `for (i = k; i < mNumListeners - 1; i++)
mListeners[i] = mListeners[i+1]`, with `steps` = number of iterations. -/
def shiftFrom : Nat → List ListenerItem → Nat → List ListenerItem
  | 0, arr, _ => arr
  | steps + 1, arr, i =>
    shiftFrom steps (arr.set i (arr.getD (i + 1) ⟨0, 0, false⟩)) (i + 1)

/-- `ListenerList::removeListener(eventCode, listener)`: remove the first
exact match, shifting later entries left by one; `false` when absent. -/
def ListenerList.removeListener (l : ListenerList) (eventCode : Int)
    (listener : Nat) : Bool × ListenerList :=
  if l.mNumListeners == 0 then
    (false, l)
  else
    match l.searchListeners eventCode listener with
    | none => (false, l)
    | some k =>
      (true,
        ⟨l.mNumListeners - 1,
         shiftFrom (l.mNumListeners - 1 - k) l.mListeners k,
         l.mDefaultCallback,
         l.mDefaultCallbackEnabled⟩)

/-- The `while ((k = searchListeners(listener)) >= 0)` loop of
`ListenerList::removeListener(listener)`; the first argument is the current
`mNumListeners`, which strictly decreases at every removal. -/
def removeAllLoop : Nat → List ListenerItem → Nat → Nat →
    List ListenerItem × Nat × Nat
  | 0, arr, _, removed => (arr, 0, removed)
  | m + 1, arr, cb, removed =>
    match searchIdx (arr.take (m + 1)) (fun it => it.callback == cb) 0 with
    | none => (arr, m + 1, removed)
    | some k => removeAllLoop m (shiftFrom (m - k) arr k) cb (removed + 1)

/-- `ListenerList::removeListener(listener)` (remove-all overload): removes
every entry with this callback, returning how many were removed. -/
def ListenerList.removeListenerAll (l : ListenerList) (listener : Nat) :
    Nat × ListenerList :=
  if l.mNumListeners == 0 then
    (0, l)
  else
    let r := removeAllLoop l.mNumListeners l.mListeners listener 0
    (r.2.2, ⟨r.2.1, r.1, l.mDefaultCallback, l.mDefaultCallbackEnabled⟩)

/-- `ListenerList::enableListener(eventCode, listener, enable)`: set the
enabled flag of the first exact match. -/
def ListenerList.enableListener (l : ListenerList) (eventCode : Int)
    (listener : Nat) (enable : Bool) : Bool × ListenerList :=
  if l.mNumListeners == 0 then
    (false, l)
  else
    match l.searchListeners eventCode listener with
    | none => (false, l)
    | some k =>
      let it := l.mListeners.getD k ⟨0, 0, false⟩
      (true,
        ⟨l.mNumListeners,
         l.mListeners.set k ⟨it.callback, it.eventCode, enable⟩,
         l.mDefaultCallback,
         l.mDefaultCallbackEnabled⟩)

/-- `ListenerList::isListenerEnabled(eventCode, listener)`. -/
def ListenerList.isListenerEnabled (l : ListenerList) (eventCode : Int)
    (listener : Nat) : Bool :=
  if l.mNumListeners == 0 then
    false
  else
    match l.searchListeners eventCode listener with
    | none => false
    | some k => (l.mListeners.getD k ⟨0, 0, false⟩).enabled

/-- `ListenerList::setDefaultListener(listener)`: reject null, otherwise
install and enable the default callback. -/
def ListenerList.setDefaultListener (l : ListenerList) (listener : Nat) :
    Bool × ListenerList :=
  if listener == 0 then
    (false, l)
  else
    (true, ⟨l.mNumListeners, l.mListeners, listener, true⟩)

/-- `ListenerList::removeDefaultListener()`. -/
def ListenerList.removeDefaultListener (l : ListenerList) : ListenerList :=
  ⟨l.mNumListeners, l.mListeners, 0, false⟩

/-- `ListenerList::enableDefaultListener(enable)`. -/
def ListenerList.enableDefaultListener (l : ListenerList) (enable : Bool) :
    ListenerList :=
  ⟨l.mNumListeners, l.mListeners, l.mDefaultCallback, enable⟩

/-- The scan loop of `ListenerList::sendEvent`: over the live entries in
order, each entry with a non-null callback, matching event code and enabled
flag is invoked; returns the handled count and the invocation trace. -/
def sendScan : List ListenerItem → Int → Int → Nat × List Invocation
  | [], _, _ => (0, [])
  | it :: rest, eventCode, param =>
    let r := sendScan rest eventCode param
    if it.callback != 0 && it.eventCode == eventCode && it.enabled then
      (r.1 + 1, (it.callback, eventCode, param) :: r.2)
    else
      r

/-- `ListenerList::sendEvent(eventCode, param)`: run the scan; if it handled
nothing and a non-null, enabled default callback is installed, invoke the
default once.  Returns the handled count and the ordered invocation trace. -/
def ListenerList.sendEvent (l : ListenerList) (eventCode param : Int) :
    Nat × List Invocation :=
  let r := sendScan (l.mListeners.take l.mNumListeners) eventCode param
  if r.1 == 0 then
    if l.mDefaultCallback != 0 && l.mDefaultCallbackEnabled then
      (1, [(l.mDefaultCallback, eventCode, param)])
    else
      (0, [])
  else
    r

/-! ## Dispatcher (`EventManager`) -/

/-- `EventManager::EventPriority`. -/
inductive EventPriority where
  | kHighPriority
  | kLowPriority
deriving DecidableEq, Repr

/-- `EventManager`: two priority queues plus the listener registry. -/
structure EventManager where
  mHighPriorityQueue : EventQueue
  mLowPriorityQueue : EventQueue
  mListeners : ListenerList
deriving DecidableEq, Repr

/-- `EventManager::EventManager(safety)`: both queues constructed with the
safety flag, the listener list by its constructor (with its uninitialized
array and default-enabled flag as parameters). -/
def EventManager.init (safety : Bool) (arr : List ListenerItem) (en : Bool) :
    EventManager :=
  ⟨EventQueue.init safety, EventQueue.init safety, ListenerList.init arr en⟩

/-- `EventManager::queueEvent(eventCode, eventParam, pri)`: forward to the
queue selected by priority. -/
def EventManager.queueEvent (em : EventManager) (eventCode eventParam : Int)
    (pri : EventPriority) : Bool × EventManager :=
  match pri with
  | EventPriority.kHighPriority =>
    let r := em.mHighPriorityQueue.queueEvent eventCode eventParam
    (r.1, ⟨r.2, em.mLowPriorityQueue, em.mListeners⟩)
  | EventPriority.kLowPriority =>
    let r := em.mLowPriorityQueue.queueEvent eventCode eventParam
    (r.1, ⟨em.mHighPriorityQueue, r.2, em.mListeners⟩)

/-- `EventManager::addListener` (inline forwarder). -/
def EventManager.addListener (em : EventManager) (eventCode : Int)
    (listener : Nat) : Bool × EventManager :=
  let r := em.mListeners.addListener eventCode listener
  (r.1, ⟨em.mHighPriorityQueue, em.mLowPriorityQueue, r.2⟩)

/-- `EventManager::processEvent()`: pop the high-priority queue; if an event
came out, dispatch it.  If the handled count is still zero (no high event, or
nobody handled it), pop and dispatch one low-priority event.  Returns the
handled count, the invocation trace, and the new state. -/
def EventManager.processEvent (em : EventManager) :
    Nat × List Invocation × EventManager :=
  match em.mHighPriorityQueue.popEvent with
  | (some (c, p), hq1) =>
    let r := em.mListeners.sendEvent c p
    if r.1 == 0 then
      match em.mLowPriorityQueue.popEvent with
      | (some (c2, p2), lq1) =>
        let r2 := em.mListeners.sendEvent c2 p2
        (r2.1, r.2 ++ r2.2, ⟨hq1, lq1, em.mListeners⟩)
      | (none, lq1) => (0, r.2, ⟨hq1, lq1, em.mListeners⟩)
    else
      (r.1, r.2, ⟨hq1, em.mLowPriorityQueue, em.mListeners⟩)
  | (none, hq1) =>
    match em.mLowPriorityQueue.popEvent with
    | (some (c2, p2), lq1) =>
      let r2 := em.mListeners.sendEvent c2 p2
      (r2.1, r2.2, ⟨hq1, lq1, em.mListeners⟩)
    | (none, lq1) => (0, [], ⟨hq1, lq1, em.mListeners⟩)

/-- One `while (queue.popEvent(...)) handledCount += sendEvent(...)` loop of
`EventManager::processAllEvents`.  Each successful pop decrements
`mNumEvents`, so `fuel = mNumEvents` iterations reach the failing pop. -/
def drainLoop : Nat → EventQueue → ListenerList →
    Nat × List Invocation × EventQueue
  | 0, q, _ => (0, [], q)
  | fuel + 1, q, l =>
    match q.popEvent with
    | (none, q1) => (0, [], q1)
    | (some (c, p), q1) =>
      let r := l.sendEvent c p
      let rest := drainLoop fuel q1 l
      (r.1 + rest.1, r.2 ++ rest.2.1, rest.2.2)

/-- `EventManager::processAllEvents()`: drain the high-priority queue, then
the low-priority queue, accumulating the handled count. -/
def EventManager.processAllEvents (em : EventManager) :
    Nat × List Invocation × EventManager :=
  let rh := drainLoop em.mHighPriorityQueue.mNumEvents em.mHighPriorityQueue
    em.mListeners
  let rl := drainLoop em.mLowPriorityQueue.mNumEvents em.mLowPriorityQueue
    em.mListeners
  (rh.1 + rl.1, rh.2.1 ++ rl.2.1, ⟨rh.2.2, rl.2.2, em.mListeners⟩)

/-- Submit a list of events in order (iterated `queueEvent`); returns the
success flags in order and the final queue. -/
def submitList : EventQueue → List (Int × Int) → List Bool × EventQueue
  | q, [] => ([], q)
  | q, (c, p) :: rest =>
    let r := q.queueEvent c p
    let rr := submitList r.2 rest
    (r.1 :: rr.1, rr.2)

/-- Pop `n` times in sequence; returns the `n` results in order and the final
queue. -/
def popN : Nat → EventQueue → List (Option (Int × Int)) × EventQueue
  | 0, q => ([], q)
  | n + 1, q =>
    let r := q.popEvent
    let rr := popN n r.2
    (r.1 :: rr.1, rr.2)

/-- Dispatching a list of events one by one: total handled count and
concatenated invocation trace (the reference meaning of a queue drain). -/
def dispatchList (l : ListenerList) : List (Int × Int) → Nat × List Invocation
  | [] => (0, [])
  | (c, p) :: rest =>
    let r := l.sendEvent c p
    let rr := dispatchList l rest
    (r.1 + rr.1, r.2 ++ rr.2)

/-! ## Helper lemmas -/

theorem searchIdx_bounds (p : ListenerItem → Bool) :
    ∀ (es : List ListenerItem) (i k : Nat), searchIdx es p i = some k →
      i ≤ k ∧ k < i + es.length := by
  intro es
  induction es with
  | nil => intro i k h; simp [searchIdx] at h
  | cons it rest ih =>
    intro i k h
    simp only [searchIdx] at h
    by_cases hp : p it = true
    · simp only [hp, if_true, Option.some.injEq] at h
      subst h
      simp
    · simp only [hp, Bool.false_eq_true, if_false] at h
      have := ih (i + 1) k h
      simp only [List.length_cons]
      omega

theorem shiftFrom_length :
    ∀ (steps : Nat) (arr : List ListenerItem) (i : Nat),
      (shiftFrom steps arr i).length = arr.length := by
  intro steps
  induction steps with
  | zero => intro arr i; rfl
  | succ m ih =>
    intro arr i
    simp only [shiftFrom, ih, List.length_set]

theorem shiftFrom_getD :
    ∀ (steps : Nat) (arr : List ListenerItem) (i j : Nat),
      i + steps ≤ arr.length →
      (shiftFrom steps arr i).getD j ⟨0, 0, false⟩ =
        if i ≤ j ∧ j < i + steps then arr.getD (j + 1) ⟨0, 0, false⟩
        else arr.getD j ⟨0, 0, false⟩ := by
  intro steps
  induction steps with
  | zero =>
    intro arr i j _
    simp only [shiftFrom, Nat.add_zero]
    have : ¬(i ≤ j ∧ j < i) := by omega
    simp [this]
  | succ m ih =>
    intro arr i j hlen
    simp only [shiftFrom]
    rw [ih (arr.set i (arr.getD (i + 1) ⟨0, 0, false⟩)) (i + 1) j
      (by simp only [List.length_set]; omega)]
    by_cases h1 : i + 1 ≤ j ∧ j < i + 1 + m
    · have h2 : i ≤ j ∧ j < i + (m + 1) := by omega
      simp only [h1, if_true, h2]
      rw [getD_set_of_ne _ _ _ _ _ (by omega)]
      simp [h2]
    · simp only [h1, if_false]
      by_cases h2 : j = i
      · subst h2
        have h3 : j ≤ j ∧ j < j + (m + 1) := by omega
        rw [getD_set_self _ _ _ _ (by omega)]
        simp [h3]
      · have h3 : ¬(i ≤ j ∧ j < i + (m + 1)) := by omega
        rw [getD_set_of_ne _ _ _ _ _ (fun he => h2 he.symm)]
        simp [h3]

theorem sendScan_count_eq_length (eventCode param : Int) :
    ∀ es : List ListenerItem,
      (sendScan es eventCode param).1 = (sendScan es eventCode param).2.length := by
  intro es
  induction es with
  | nil => rfl
  | cons it rest ih =>
    simp only [sendScan]
    by_cases hc : (it.callback != 0 && it.eventCode == eventCode && it.enabled) = true
    · simp [hc, ih]
    · simp [hc, ih]

theorem sendScan_filter (eventCode param : Int) :
    ∀ es : List ListenerItem, (∀ it ∈ es, it.callback ≠ 0) →
      sendScan es eventCode param =
        (((es.filter fun it => it.eventCode == eventCode && it.enabled)).length,
          ((es.filter fun it => it.eventCode == eventCode && it.enabled)).map
            fun it => (it.callback, eventCode, param)) := by
  intro es
  induction es with
  | nil => intro _; rfl
  | cons it rest ih =>
    intro hnn
    have hit : it.callback ≠ 0 := hnn it (by simp)
    have hrest : ∀ x ∈ rest, x.callback ≠ 0 := fun x hx => hnn x (by simp [hx])
    have hb : (it.callback != 0) = true := by simpa using hit
    simp only [sendScan, List.filter_cons]
    by_cases hm : (it.eventCode == eventCode && it.enabled) = true
    · have : (it.callback != 0 && it.eventCode == eventCode && it.enabled) = true := by
        simp only [Bool.and_eq_true] at hm ⊢
        exact ⟨⟨by simpa using hit, hm.1⟩, hm.2⟩
      simp [this, hm, ih hrest]
    · have : (it.callback != 0 && it.eventCode == eventCode && it.enabled) = false := by
        simp only [Bool.and_eq_true, not_and] at hm
        cases he : (it.eventCode == eventCode) with
        | false => simp [he]
        | true => simp [he, hm]
      simp [this, hm, ih hrest]

theorem sendScan_no_null (eventCode param : Int) :
    ∀ (es : List ListenerItem) (x : Invocation),
      x ∈ (sendScan es eventCode param).2 → x.1 ≠ 0 := by
  intro es
  induction es with
  | nil => intro x hx; simp [sendScan] at hx
  | cons it rest ih =>
    intro x hx
    simp only [sendScan] at hx
    by_cases hc : (it.callback != 0 && it.eventCode == eventCode && it.enabled) = true
    · simp only [hc, if_true, List.mem_cons] at hx
      rcases hx with hx | hx
      · subst hx
        simp only [Bool.and_eq_true, bne_iff_ne, ne_eq] at hc
        exact hc.1.1
      · exact ih x hx
    · simp only [hc, if_false] at hx
      exact ih x hx

theorem sendEvent_count_eq_length (l : ListenerList) (eventCode param : Int) :
    (l.sendEvent eventCode param).1 = (l.sendEvent eventCode param).2.length := by
  unfold ListenerList.sendEvent
  by_cases h0 :
      (sendScan (l.mListeners.take l.mNumListeners) eventCode param).1 = 0
  · simp only [h0]
    by_cases hd : (l.mDefaultCallback != 0 && l.mDefaultCallbackEnabled) = true
    · simp [hd]
    · simp [hd]
  · have : ((sendScan (l.mListeners.take l.mNumListeners) eventCode param).1 == 0)
        = false := by simpa using h0
    simp only [this, Bool.false_eq_true, if_false]
    exact sendScan_count_eq_length eventCode param _

theorem sendEvent_zero_trace (l : ListenerList) (eventCode param : Int)
    (h : (l.sendEvent eventCode param).1 = 0) :
    (l.sendEvent eventCode param).2 = [] := by
  have := sendEvent_count_eq_length l eventCode param
  rw [h] at this
  exact (List.length_eq_zero.mp this.symm)

theorem toList_length (q : EventQueue) : q.toList.length = q.mNumEvents :=
  readFrom_length q.mEventQueue q.mEventQueueHead q.mNumEvents

theorem drainLoop_spec :
    ∀ (n : Nat) (q : EventQueue) (l : ListenerList), q.WF → q.mNumEvents = n →
      (drainLoop n q l).1 = (dispatchList l q.toList).1 ∧
      (drainLoop n q l).2.1 = (dispatchList l q.toList).2 ∧
      (drainLoop n q l).2.2.mNumEvents = 0 ∧
      (drainLoop n q l).2.2.WF := by
  intro n
  induction n with
  | zero =>
    intro q l hwf h0
    have htl : q.toList = [] := by
      have hl := toList_length q
      rw [h0] at hl
      exact List.length_eq_zero.mp hl
    simp [drainLoop, dispatchList, htl, h0, hwf]
  | succ m ih =>
    intro q l hwf hm
    obtain ⟨e, rest, htl, hpop, hwf', htl', hcnt'⟩ :=
      popEvent_of_not_empty q hwf (by omega)
    rcases hq : q.popEvent with ⟨r1, q1⟩
    rw [hq] at hpop hwf' htl' hcnt'
    simp only at hpop hwf' htl' hcnt'
    subst hpop
    rw [hm] at hcnt'
    simp only [Nat.add_sub_cancel] at hcnt'
    obtain ⟨ih1, ih2, ih3, ih4⟩ := ih q1 l hwf' hcnt'
    rw [htl'] at ih1 ih2
    rcases e with ⟨c, p⟩
    simp only [drainLoop, hq, htl, dispatchList, ih1, ih2]
    exact ⟨trivial, trivial, ih3, ih4⟩

theorem submitList_spec :
    ∀ (es : List (Int × Int)) (q : EventQueue), q.WF →
      q.mNumEvents + es.length ≤ kEventQueueSize →
      (submitList q es).1 = List.replicate es.length true ∧
      (submitList q es).2.WF ∧
      (submitList q es).2.toList = q.toList ++ es ∧
      (submitList q es).2.mNumEvents = q.mNumEvents + es.length := by
  intro es
  induction es with
  | nil =>
    intro q hwf _
    simpa [submitList] using hwf
  | cons e rest ih =>
    intro q hwf hcap
    rcases e with ⟨c, p⟩
    simp only [List.length_cons] at hcap
    have hnf : q.mNumEvents ≠ kEventQueueSize := by
      simp only [kEventQueueSize] at *; omega
    obtain ⟨hret, hwf1, htl1, hcnt1⟩ := queueEvent_of_not_full q c p hwf hnf
    rcases hq : q.queueEvent c p with ⟨b, q1⟩
    rw [hq] at hret hwf1 htl1 hcnt1
    simp only at hret hwf1 htl1 hcnt1
    subst hret
    obtain ⟨ih1, ih2, ih3, ih4⟩ := ih q1 hwf1 (by omega)
    refine ⟨?_, ?_, ?_, ?_⟩
    · show ((q.queueEvent c p).1 :: (submitList (q.queueEvent c p).2 rest).1) = _
      rw [hq]
      simp only [ih1, List.length_cons, List.replicate_succ]
    · show (submitList (q.queueEvent c p).2 rest).2.WF
      rw [hq]
      exact ih2
    · show (submitList (q.queueEvent c p).2 rest).2.toList = _
      rw [hq]
      rw [ih3, htl1]
      simp
    · show (submitList (q.queueEvent c p).2 rest).2.mNumEvents = _
      rw [hq]
      rw [ih4, hcnt1]
      simp only [List.length_cons]
      omega

theorem popN_spec :
    ∀ (n : Nat) (q : EventQueue), q.WF → q.mNumEvents = n →
      (popN n q).1 = q.toList.map some ∧
      (popN n q).2.mNumEvents = 0 ∧
      (popN n q).2.WF := by
  intro n
  induction n with
  | zero =>
    intro q hwf h0
    have htl : q.toList = [] := by
      have hl := toList_length q
      rw [h0] at hl
      exact List.length_eq_zero.mp hl
    simp [popN, htl, h0, hwf]
  | succ m ih =>
    intro q hwf hm
    obtain ⟨e, rest, htl, hpop, hwf', htl', hcnt'⟩ :=
      popEvent_of_not_empty q hwf (by omega)
    rcases hq : q.popEvent with ⟨r1, q1⟩
    rw [hq] at hpop hwf' htl' hcnt'
    simp only at hpop hwf' htl' hcnt'
    subst hpop
    rw [hm] at hcnt'
    simp only [Nat.add_sub_cancel] at hcnt'
    obtain ⟨ih1, ih2, ih3⟩ := ih q1 hwf' hcnt'
    rw [htl'] at ih1
    simp only [popN, hq, ih1, htl, List.map_cons]
    exact ⟨trivial, ih2, ih3⟩

/-! ## Structural invariants (for claim C9) -/

/-- Structural invariant of a queue: fixed storage length, `count ≤ capacity`,
and both indices within `[0, kEventQueueSize)`. -/
def EventQueue.Inv (q : EventQueue) : Prop :=
  q.mEventQueue.length = kEventQueueSize ∧
  q.mNumEvents ≤ kEventQueueSize ∧
  q.mEventQueueHead < kEventQueueSize ∧
  q.mEventQueueTail < kEventQueueSize

instance (q : EventQueue) : Decidable q.Inv := by
  unfold EventQueue.Inv; infer_instance

/-- Structural invariant of the listener table: fixed storage length and
`count ≤ kMaxListeners`.  The live entries are the contiguous prefix
`[0, mNumListeners)` by construction of the model. -/
def ListenerList.Inv (l : ListenerList) : Prop :=
  l.mListeners.length = kMaxListeners ∧
  l.mNumListeners ≤ kMaxListeners

instance (l : ListenerList) : Decidable l.Inv := by
  unfold ListenerList.Inv; infer_instance

/-- Structural invariant of the full dispatcher state. -/
def EventManager.Inv (em : EventManager) : Prop :=
  em.mHighPriorityQueue.Inv ∧ em.mLowPriorityQueue.Inv ∧ em.mListeners.Inv

instance (em : EventManager) : Decidable em.Inv := by
  unfold EventManager.Inv; infer_instance

theorem queueEvent_inv (q : EventQueue) (c p : Int) (h : q.Inv) :
    (q.queueEvent c p).2.Inv := by
  obtain ⟨h1, h2, h3, h4⟩ := h
  unfold EventQueue.queueEvent
  split_ifs with hf
  · exact ⟨h1, h2, h3, h4⟩
  · simp only [EventQueue.isFull, beq_iff_eq] at hf
    refine ⟨?_, ?_, ?_, ?_⟩
    · show (q.mEventQueue.set q.mEventQueueTail ⟨c, p⟩).length = kEventQueueSize
      simpa using h1
    · show q.mNumEvents + 1 ≤ kEventQueueSize
      simp only [kEventQueueSize] at *
      omega
    · exact h3
    · show (q.mEventQueueTail + 1) % kEventQueueSize < kEventQueueSize
      simp only [kEventQueueSize]
      omega

theorem popEvent_inv (q : EventQueue) (h : q.Inv) : (q.popEvent).2.Inv := by
  obtain ⟨h1, h2, h3, h4⟩ := h
  unfold EventQueue.popEvent
  split_ifs with he
  · exact ⟨h1, h2, h3, h4⟩
  · refine ⟨?_, ?_, ?_, ?_⟩
    · show (q.mEventQueue.set q.mEventQueueHead _).length = kEventQueueSize
      simpa using h1
    · show q.mNumEvents - 1 ≤ kEventQueueSize
      omega
    · show (q.mEventQueueHead + 1) % kEventQueueSize < kEventQueueSize
      simp only [kEventQueueSize]
      omega
    · exact h4

theorem removeAllLoop_len_le :
    ∀ (n : Nat) (arr : List ListenerItem) (cb removed : Nat),
      (removeAllLoop n arr cb removed).1.length = arr.length ∧
      (removeAllLoop n arr cb removed).2.1 ≤ n := by
  intro n
  induction n with
  | zero => intro arr cb removed; exact ⟨rfl, Nat.le_refl 0⟩
  | succ m ih =>
    intro arr cb removed
    simp only [removeAllLoop]
    cases hs : searchIdx (arr.take (m + 1)) (fun it => it.callback == cb) 0 with
    | none => exact ⟨rfl, Nat.le_refl _⟩
    | some k =>
      obtain ⟨ih1, ih2⟩ := ih (shiftFrom (m - k) arr k) cb (removed + 1)
      rw [shiftFrom_length] at ih1
      show (removeAllLoop m (shiftFrom (m - k) arr k) cb (removed + 1)).1.length
          = arr.length ∧
        (removeAllLoop m (shiftFrom (m - k) arr k) cb (removed + 1)).2.1 ≤ m + 1
      exact ⟨ih1, by omega⟩

theorem addListener_inv (l : ListenerList) (c : Int) (cb : Nat) (h : l.Inv) :
    (l.addListener c cb).2.Inv := by
  obtain ⟨h1, h2⟩ := h
  unfold ListenerList.addListener
  split_ifs with hz hf
  · exact ⟨h1, h2⟩
  · exact ⟨h1, h2⟩
  · simp only [ListenerList.isFull, beq_iff_eq] at hf
    refine ⟨?_, ?_⟩
    · show (l.mListeners.set l.mNumListeners ⟨cb, c, true⟩).length = kMaxListeners
      simpa using h1
    · show l.mNumListeners + 1 ≤ kMaxListeners
      simp only [kMaxListeners] at *
      omega

theorem removeListener_inv (l : ListenerList) (c : Int) (cb : Nat)
    (h : l.Inv) : (l.removeListener c cb).2.Inv := by
  obtain ⟨h1, h2⟩ := h
  unfold ListenerList.removeListener
  split_ifs with h0
  · exact ⟨h1, h2⟩
  · cases hs : l.searchListeners c cb with
    | none => exact ⟨h1, h2⟩
    | some k =>
      refine ⟨?_, ?_⟩
      · show (shiftFrom (l.mNumListeners - 1 - k) l.mListeners k).length =
          kMaxListeners
        rw [shiftFrom_length]
        exact h1
      · show l.mNumListeners - 1 ≤ kMaxListeners
        omega

theorem removeListenerAll_inv (l : ListenerList) (cb : Nat) (h : l.Inv) :
    (l.removeListenerAll cb).2.Inv := by
  obtain ⟨h1, h2⟩ := h
  unfold ListenerList.removeListenerAll
  split_ifs with h0
  · exact ⟨h1, h2⟩
  · obtain ⟨hl, hn⟩ := removeAllLoop_len_le l.mNumListeners l.mListeners cb 0
    refine ⟨?_, ?_⟩
    · show (removeAllLoop l.mNumListeners l.mListeners cb 0).1.length =
        kMaxListeners
      rw [hl]
      exact h1
    · show (removeAllLoop l.mNumListeners l.mListeners cb 0).2.1 ≤ kMaxListeners
      omega

theorem enableListener_inv (l : ListenerList) (c : Int) (cb : Nat) (b : Bool)
    (h : l.Inv) : (l.enableListener c cb b).2.Inv := by
  obtain ⟨h1, h2⟩ := h
  unfold ListenerList.enableListener
  split_ifs with h0
  · exact ⟨h1, h2⟩
  · cases hs : l.searchListeners c cb with
    | none => exact ⟨h1, h2⟩
    | some k =>
      refine ⟨?_, h2⟩
      show (l.mListeners.set k _).length = kMaxListeners
      simpa using h1

theorem setDefaultListener_inv (l : ListenerList) (cb : Nat) (h : l.Inv) :
    (l.setDefaultListener cb).2.Inv := by
  obtain ⟨h1, h2⟩ := h
  unfold ListenerList.setDefaultListener
  split_ifs with hz
  · exact ⟨h1, h2⟩
  · exact ⟨h1, h2⟩

theorem removeDefaultListener_inv (l : ListenerList) (h : l.Inv) :
    l.removeDefaultListener.Inv := h

theorem enableDefaultListener_inv (l : ListenerList) (b : Bool) (h : l.Inv) :
    (l.enableDefaultListener b).Inv := h

theorem drainLoop_inv :
    ∀ (fuel : Nat) (q : EventQueue) (l : ListenerList), q.Inv →
      (drainLoop fuel q l).2.2.Inv := by
  intro fuel
  induction fuel with
  | zero => intro q l h; exact h
  | succ m ih =>
    intro q l h
    simp only [drainLoop]
    rcases hq : q.popEvent with ⟨r1, q1⟩
    have hq1 : q1.Inv := by
      have hp := popEvent_inv q h
      rw [hq] at hp
      exact hp
    cases r1 with
    | none => exact hq1
    | some e =>
      rcases e with ⟨c, p⟩
      exact ih q1 l hq1

theorem processEvent_inv (em : EventManager) (h : em.Inv) :
    (em.processEvent).2.2.Inv := by
  obtain ⟨h1, h2, h3⟩ := h
  unfold EventManager.processEvent
  rcases hq : em.mHighPriorityQueue.popEvent with ⟨r1, hq1⟩
  have hih : hq1.Inv := by
    have hp := popEvent_inv em.mHighPriorityQueue h1
    rw [hq] at hp
    exact hp
  rcases hl : em.mLowPriorityQueue.popEvent with ⟨r2, lq1⟩
  have hil : lq1.Inv := by
    have hp := popEvent_inv em.mLowPriorityQueue h2
    rw [hl] at hp
    exact hp
  cases r1 with
  | some e =>
    rcases e with ⟨c, p⟩
    by_cases hz : ((em.mListeners.sendEvent c p).1 == 0) = true
    · simp only [hz, if_true]
      cases r2 with
      | some e2 =>
        rcases e2 with ⟨c2, p2⟩
        exact ⟨hih, hil, h3⟩
      | none => exact ⟨hih, hil, h3⟩
    · simp only [hz, Bool.false_eq_true, if_false]
      exact ⟨hih, h2, h3⟩
  | none =>
    cases r2 with
    | some e2 =>
      rcases e2 with ⟨c2, p2⟩
      exact ⟨hih, hil, h3⟩
    | none => exact ⟨hih, hil, h3⟩

theorem processAllEvents_inv (em : EventManager) (h : em.Inv) :
    (em.processAllEvents).2.2.Inv := by
  obtain ⟨h1, h2, h3⟩ := h
  exact ⟨drainLoop_inv _ _ _ h1, drainLoop_inv _ _ _ h2, h3⟩

/-! ## Concrete states used by witnesses and counterexamples -/

/-- A concrete listener table as left by the constructor (one possible
content of the uninitialized array and flag). -/
def zeroedListenerArray : List ListenerItem :=
  List.replicate kMaxListeners ⟨0, 0, false⟩

/-- A freshly constructed dispatcher (interrupt-safe mode, zeroed
uninitialized memory). -/
def freshManager : EventManager :=
  EventManager.init true zeroedListenerArray false

/-- The fresh dispatcher after queueing high-priority event `(1, 1)` and
low-priority event `(2, 2)` — a reachable state with one event in each
queue and no listeners. -/
def managerBothQueued : EventManager :=
  ((freshManager.queueEvent 1 1 EventPriority.kHighPriority).2.queueEvent 2 2
    EventPriority.kLowPriority).2

/-- The handled count produced by the high-priority half of
`processEvent()`: `0` when the high-priority pop yields nothing, otherwise
the handled count of dispatching the popped event. -/
def EventManager.highAttemptCount (em : EventManager) : Nat :=
  match (em.mHighPriorityQueue.popEvent).1 with
  | none => 0
  | some (c, p) => (em.mListeners.sendEvent c p).1

theorem popEvent_count (q : EventQueue) :
    (q.popEvent).2.mNumEvents = q.mNumEvents ∨
    (q.popEvent).2.mNumEvents + 1 = q.mNumEvents := by
  unfold EventQueue.popEvent
  split_ifs with he
  · left; rfl
  · right
    simp only [EventQueue.isEmpty, beq_iff_eq] at he
    show q.mNumEvents - 1 + 1 = q.mNumEvents
    omega

/-! ## Claims -/

/-- Claim C1 as stated is false on the code: when the popped high-priority
event has zero enabled listeners (handled count 0), `processEvent()` goes on
to pop the low-priority queue in the same call.  From the reachable state
with one event in each queue and no listeners, a single `processEvent()`
call empties both queues: two events are consumed in one call. -/
theorem processEvent_consumes_two_at_once :
    managerBothQueued.mHighPriorityQueue.mNumEvents = 1 ∧
    managerBothQueued.mLowPriorityQueue.mNumEvents = 1 ∧
    (managerBothQueued.processEvent).2.2.mHighPriorityQueue.mNumEvents = 0 ∧
    (managerBothQueued.processEvent).2.2.mLowPriorityQueue.mNumEvents = 0 := by
  decide

/-- Claim C1 amended: a single `processEvent()` call consumes at most one
event from each queue (so at most two in total, not at most one): each
queue's count drops by at most one. -/
theorem processEvent_consumes_at_most_one_per_queue (em : EventManager) :
    ((em.processEvent).2.2.mHighPriorityQueue.mNumEvents =
        em.mHighPriorityQueue.mNumEvents ∨
      (em.processEvent).2.2.mHighPriorityQueue.mNumEvents + 1 =
        em.mHighPriorityQueue.mNumEvents) ∧
    ((em.processEvent).2.2.mLowPriorityQueue.mNumEvents =
        em.mLowPriorityQueue.mNumEvents ∨
      (em.processEvent).2.2.mLowPriorityQueue.mNumEvents + 1 =
        em.mLowPriorityQueue.mNumEvents) := by
  have hhc := popEvent_count em.mHighPriorityQueue
  have hlc := popEvent_count em.mLowPriorityQueue
  unfold EventManager.processEvent
  rcases hq : em.mHighPriorityQueue.popEvent with ⟨r1, hq1⟩
  rcases hl : em.mLowPriorityQueue.popEvent with ⟨r2, lq1⟩
  rw [hq] at hhc
  rw [hl] at hlc
  simp only at hhc hlc
  cases r1 with
  | none =>
    cases r2 with
    | none => exact ⟨hhc, hlc⟩
    | some e2 =>
      rcases e2 with ⟨c2, p2⟩
      exact ⟨hhc, hlc⟩
  | some e =>
    rcases e with ⟨c, p⟩
    by_cases hz : ((em.mListeners.sendEvent c p).1 == 0) = true
    · simp only [hz, if_true]
      cases r2 with
      | none => exact ⟨hhc, hlc⟩
      | some e2 =>
        rcases e2 with ⟨c2, p2⟩
        exact ⟨hhc, hlc⟩
    · simp only [hz, Bool.false_eq_true, if_false]
      exact ⟨hhc, by simp⟩

/-- Claim C2: `processEvent()` always applies the result of the
high-priority pop; the low-priority queue is popped exactly when the handled
count after the high-priority attempt is zero; and whenever a high-priority
event was popped, its dispatch comes first in the invocation trace, before
any low-priority dispatch. -/
theorem processEvent_high_priority_first (em : EventManager) :
    (em.processEvent).2.2.mHighPriorityQueue =
      (em.mHighPriorityQueue.popEvent).2 ∧
    (em.processEvent).2.2.mLowPriorityQueue =
      (if em.highAttemptCount = 0 then (em.mLowPriorityQueue.popEvent).2
       else em.mLowPriorityQueue) ∧
    (∀ c p, (em.mHighPriorityQueue.popEvent).1 = some (c, p) →
      (em.processEvent).2.1 =
        (em.mListeners.sendEvent c p).2 ++
          (if (em.mListeners.sendEvent c p).1 = 0 then
            (match (em.mLowPriorityQueue.popEvent).1 with
             | some (c2, p2) => (em.mListeners.sendEvent c2 p2).2
             | none => [])
           else [])) := by
  unfold EventManager.processEvent EventManager.highAttemptCount
  rcases hq : em.mHighPriorityQueue.popEvent with ⟨r1, hq1⟩
  rcases hl : em.mLowPriorityQueue.popEvent with ⟨r2, lq1⟩
  cases r1 with
  | none =>
    cases r2 with
    | none =>
      refine ⟨rfl, by simp, ?_⟩
      intro c p hcp
      cases hcp
    | some e2 =>
      rcases e2 with ⟨c2, p2⟩
      refine ⟨rfl, by simp, ?_⟩
      intro c p hcp
      cases hcp
  | some e =>
    rcases e with ⟨c0, p0⟩
    by_cases hz : (em.mListeners.sendEvent c0 p0).1 = 0
    · have hzb : ((em.mListeners.sendEvent c0 p0).1 == 0) = true := by
        simpa using hz
      simp only [hzb, if_true]
      cases r2 with
      | none =>
        refine ⟨rfl, by simp [hz], ?_⟩
        intro c p hcp
        injection hcp with hcp'
        injection hcp' with hc hp
        subst hc
        subst hp
        simp [hz, sendEvent_zero_trace _ _ _ hz]
      | some e2 =>
        rcases e2 with ⟨c2, p2⟩
        refine ⟨rfl, by simp [hz], ?_⟩
        intro c p hcp
        injection hcp with hcp'
        injection hcp' with hc hp
        subst hc
        subst hp
        simp [hz]
    · have hzb : ((em.mListeners.sendEvent c0 p0).1 == 0) = false := by
        simpa using hz
      simp only [hzb, Bool.false_eq_true, if_false]
      refine ⟨by trivial, by simp [hz], ?_⟩
      intro c p hcp
      injection hcp with hcp'
      injection hcp' with hc hp
      subst hc
      subst hp
      simp [hz]

/-- Witness for C2 at a concrete reachable state with one event in each
queue (both non-empty): the high-priority event is popped and its dispatch
trace comes first. -/
theorem processEvent_high_priority_first_witness :
    (managerBothQueued.processEvent).2.2.mHighPriorityQueue =
      (managerBothQueued.mHighPriorityQueue.popEvent).2 ∧
    (managerBothQueued.mHighPriorityQueue.popEvent).1 = some (1, 1) ∧
    (managerBothQueued.processEvent).2.1 =
      (managerBothQueued.mListeners.sendEvent 1 1).2 ++
        (if (managerBothQueued.mListeners.sendEvent 1 1).1 = 0 then
          (match (managerBothQueued.mLowPriorityQueue.popEvent).1 with
           | some (c2, p2) => (managerBothQueued.mListeners.sendEvent c2 p2).2
           | none => [])
         else []) :=
  ⟨(processEvent_high_priority_first managerBothQueued).1, by decide,
    (processEvent_high_priority_first managerBothQueued).2.2 1 1 (by decide)⟩

/-- Claim C3: submitting to a full queue (count = capacity) fails and leaves
the whole queue state unchanged; submitting to a non-full queue writes the
event into the tail slot, advances the tail modulo the capacity, increments
the count and succeeds. -/
theorem queueEvent_full_and_nonfull_spec (q : EventQueue) (c p : Int) :
    (q.mNumEvents = kEventQueueSize → q.queueEvent c p = (false, q)) ∧
    (q.mNumEvents ≠ kEventQueueSize →
      q.queueEvent c p =
        (true,
          ⟨q.mEventQueue.set q.mEventQueueTail ⟨c, p⟩,
           q.mEventQueueHead,
           (q.mEventQueueTail + 1) % kEventQueueSize,
           q.mNumEvents + 1,
           q.mInterruptSafeMode⟩)) := by
  constructor
  · intro h
    simp [EventQueue.queueEvent, EventQueue.isFull, h]
  · intro h
    exact queueEvent_eq_of_not_full q c p h

/-- A queue filled to capacity by eight submissions (a reachable state). -/
def fullQueue : EventQueue :=
  (submitList (EventQueue.init true)
    [(1, 1), (2, 2), (3, 3), (4, 4), (5, 5), (6, 6), (7, 7), (8, 8)]).2

/-- Witness for C3: on the concrete full queue the ninth submission fails
without mutation, and on a fresh queue a submission succeeds. -/
theorem queueEvent_full_and_nonfull_spec_witness :
    (fullQueue.mNumEvents = kEventQueueSize ∧
      fullQueue.queueEvent 9 9 = (false, fullQueue)) ∧
    ((EventQueue.init true).mNumEvents ≠ kEventQueueSize ∧
      (EventQueue.init true).queueEvent 1 2 =
        (true,
          ⟨(EventQueue.init true).mEventQueue.set 0 ⟨1, 2⟩, 0, 1, 1, true⟩)) :=
  ⟨⟨by decide, (queueEvent_full_and_nonfull_spec fullQueue 9 9).1 (by decide)⟩,
   ⟨by decide, (queueEvent_full_and_nonfull_spec (EventQueue.init true) 1 2).2
      (by decide)⟩⟩

/-- Claim C7: popping an empty queue (count = 0) reports no event and has no
side effects: the returned state is the unchanged queue, and no output is
produced (the `none` result models the untouched output parameters). -/
theorem popEvent_empty_no_effect (q : EventQueue) (h : q.mNumEvents = 0) :
    q.popEvent = (none, q) :=
  popEvent_of_empty q h

/-- Witness for C7 on the freshly constructed queue. -/
theorem popEvent_empty_no_effect_witness :
    (EventQueue.init true).mNumEvents = 0 ∧
    (EventQueue.init true).popEvent = (none, EventQueue.init true) :=
  ⟨rfl, popEvent_empty_no_effect (EventQueue.init true) rfl⟩

/-- A reachable queue that already holds one event `(9, 9)`. -/
def preloadedQueue : EventQueue :=
  ((EventQueue.init true).queueEvent 9 9).2

/-- Claim C4 as stated is false on the code: from a reachable queue state
that is not empty, one successful submission `S1 = (1, 1)` is not returned by
the next pop — the pre-existing event `(9, 9)` comes out first (FIFO includes
the events that were already queued). -/
theorem popEvent_returns_preexisting_event_first :
    ((EventQueue.init true).queueEvent 9 9).1 = true ∧
    ((preloadedQueue.queueEvent 1 1).1 = true ∧
      ((preloadedQueue.queueEvent 1 1).2.popEvent).1 = some (9, 9)) ∧
    some ((9 : Int), (9 : Int)) ≠ some ((1 : Int), (1 : Int)) := by
  decide

/-- Claim C4 amended: from any well-formed (reachable) queue state, if `n`
submissions S1..Sn all fit (old count + n ≤ capacity), they all succeed, and
the next old-count + n pops all succeed and return the pre-existing events
followed by S1..Sn, in order.  For an initially empty queue this is exactly:
the next n pops return S1..Sn in order (strict FIFO). -/
theorem queue_fifo_order (q : EventQueue) (es : List (Int × Int)) (hwf : q.WF)
    (hcap : q.mNumEvents + es.length ≤ kEventQueueSize) :
    (submitList q es).1 = List.replicate es.length true ∧
    (popN (q.mNumEvents + es.length) (submitList q es).2).1 =
      (q.toList ++ es).map some := by
  obtain ⟨h1, h2, h3, h4⟩ := submitList_spec es q hwf hcap
  refine ⟨h1, ?_⟩
  obtain ⟨p1, p2, p3⟩ :=
    popN_spec (q.mNumEvents + es.length) (submitList q es).2 h2 h4
  rw [p1, h3]

/-- Witness for the amended C4: three submissions to a fresh (empty) queue
all succeed and come back in submission order. -/
theorem queue_fifo_order_witness :
    ((EventQueue.init true).WF ∧
      (EventQueue.init true).mNumEvents +
        ([((1 : Int), (1 : Int)), (2, 2), (3, 3)]).length ≤ kEventQueueSize) ∧
    ((submitList (EventQueue.init true) [(1, 1), (2, 2), (3, 3)]).1 =
        List.replicate ([((1 : Int), (1 : Int)), (2, 2), (3, 3)]).length true ∧
      (popN ((EventQueue.init true).mNumEvents +
          ([((1 : Int), (1 : Int)), (2, 2), (3, 3)]).length)
        (submitList (EventQueue.init true) [(1, 1), (2, 2), (3, 3)]).2).1 =
        (((EventQueue.init true).toList ++ [(1, 1), (2, 2), (3, 3)]).map some)) :=
  ⟨⟨by decide, by decide⟩,
    queue_fifo_order (EventQueue.init true) [(1, 1), (2, 2), (3, 3)]
      (by decide) (by decide)⟩

/-- Claim C5: on a registry whose live entries all carry non-null callbacks
(true of every reachable registry, since `addListener` rejects null), a
dispatch invokes, in registration order, exactly the live entries matching
the event code with the enabled flag set, each with `(code, param)`; when
none match, the installed-and-enabled default callback is invoked exactly
once (nothing otherwise); and the returned count always equals the number of
invocations performed. -/
theorem sendEvent_dispatch_spec (l : ListenerList) (code param : Int)
    (hnn : ∀ it ∈ l.mListeners.take l.mNumListeners, it.callback ≠ 0) :
    ((l.mListeners.take l.mNumListeners).filter
        (fun it => it.eventCode == code && it.enabled) ≠ [] →
      l.sendEvent code param =
        (((l.mListeners.take l.mNumListeners).filter
            (fun it => it.eventCode == code && it.enabled)).length,
          ((l.mListeners.take l.mNumListeners).filter
            (fun it => it.eventCode == code && it.enabled)).map
            (fun it => (it.callback, code, param)))) ∧
    ((l.mListeners.take l.mNumListeners).filter
        (fun it => it.eventCode == code && it.enabled) = [] →
      l.sendEvent code param =
        (if l.mDefaultCallback != 0 && l.mDefaultCallbackEnabled then
          (1, [(l.mDefaultCallback, code, param)])
         else (0, []))) ∧
    (l.sendEvent code param).1 = (l.sendEvent code param).2.length := by
  have hscan := sendScan_filter code param (l.mListeners.take l.mNumListeners) hnn
  refine ⟨?_, ?_, sendEvent_count_eq_length l code param⟩
  · intro hne
    have hlen : ((l.mListeners.take l.mNumListeners).filter
        (fun it => it.eventCode == code && it.enabled)).length ≠ 0 := by
      simpa using hne
    unfold ListenerList.sendEvent
    rw [hscan]
    simp [hlen]
  · intro hemp
    unfold ListenerList.sendEvent
    rw [hscan, hemp]
    simp

/-- A reachable registry with a single enabled listener `(code 42, cb 7)`. -/
def singleListener : ListenerList :=
  ((ListenerList.init zeroedListenerArray false).addListener 42 7).2

/-- Witness for C5 on the concrete one-listener registry: dispatching code 42
invokes callback 7 once. -/
theorem sendEvent_dispatch_spec_witness :
    (∀ it ∈ singleListener.mListeners.take singleListener.mNumListeners,
      it.callback ≠ 0) ∧
    ((singleListener.mListeners.take singleListener.mNumListeners).filter
        (fun it => it.eventCode == 42 && it.enabled) ≠ [] →
      singleListener.sendEvent 42 5 =
        (((singleListener.mListeners.take singleListener.mNumListeners).filter
            (fun it => it.eventCode == 42 && it.enabled)).length,
          ((singleListener.mListeners.take singleListener.mNumListeners).filter
            (fun it => it.eventCode == 42 && it.enabled)).map
            (fun it => (it.callback, 42, 5)))) :=
  ⟨by decide, ((sendEvent_dispatch_spec singleListener 42 5 (by decide)).1)⟩

/-- Claim C6: `processAllEvents()` (with listener callbacks that do not
mutate the dispatcher, as built into the model) terminates having popped and
dispatched every high-priority event first and then every low-priority
event; it returns the sum of the handled counts over all dispatched events
and leaves both queues empty. -/
theorem processAllEvents_drains_both_queues (em : EventManager)
    (hwfh : em.mHighPriorityQueue.WF) (hwfl : em.mLowPriorityQueue.WF) :
    (em.processAllEvents).2.2.mHighPriorityQueue.mNumEvents = 0 ∧
    (em.processAllEvents).2.2.mLowPriorityQueue.mNumEvents = 0 ∧
    (em.processAllEvents).1 =
      (dispatchList em.mListeners em.mHighPriorityQueue.toList).1 +
        (dispatchList em.mListeners em.mLowPriorityQueue.toList).1 ∧
    (em.processAllEvents).2.1 =
      (dispatchList em.mListeners em.mHighPriorityQueue.toList).2 ++
        (dispatchList em.mListeners em.mLowPriorityQueue.toList).2 := by
  obtain ⟨a1, a2, a3, a4⟩ := drainLoop_spec em.mHighPriorityQueue.mNumEvents
    em.mHighPriorityQueue em.mListeners hwfh rfl
  obtain ⟨b1, b2, b3, b4⟩ := drainLoop_spec em.mLowPriorityQueue.mNumEvents
    em.mLowPriorityQueue em.mListeners hwfl rfl
  refine ⟨a3, b3, ?_, ?_⟩
  · show (drainLoop em.mHighPriorityQueue.mNumEvents em.mHighPriorityQueue
        em.mListeners).1 +
      (drainLoop em.mLowPriorityQueue.mNumEvents em.mLowPriorityQueue
        em.mListeners).1 = _
    rw [a1, b1]
  · show (drainLoop em.mHighPriorityQueue.mNumEvents em.mHighPriorityQueue
        em.mListeners).2.1 ++
      (drainLoop em.mLowPriorityQueue.mNumEvents em.mLowPriorityQueue
        em.mListeners).2.1 = _
    rw [a2, b2]

/-- Witness for C6 on the concrete reachable state with one event in each
queue: both queues end empty and the totals add up. -/
theorem processAllEvents_drains_both_queues_witness :
    (managerBothQueued.mHighPriorityQueue.WF ∧
      managerBothQueued.mLowPriorityQueue.WF) ∧
    ((managerBothQueued.processAllEvents).2.2.mHighPriorityQueue.mNumEvents = 0 ∧
      (managerBothQueued.processAllEvents).2.2.mLowPriorityQueue.mNumEvents = 0 ∧
      (managerBothQueued.processAllEvents).1 =
        (dispatchList managerBothQueued.mListeners
            managerBothQueued.mHighPriorityQueue.toList).1 +
          (dispatchList managerBothQueued.mListeners
            managerBothQueued.mLowPriorityQueue.toList).1 ∧
      (managerBothQueued.processAllEvents).2.1 =
        (dispatchList managerBothQueued.mListeners
            managerBothQueued.mHighPriorityQueue.toList).2 ++
          (dispatchList managerBothQueued.mListeners
            managerBothQueued.mLowPriorityQueue.toList).2) :=
  ⟨⟨by decide, by decide⟩,
    processAllEvents_drains_both_queues managerBothQueued (by decide) (by decide)⟩

/-- A reachable registry holding `(code 5, cb 1)` twice (duplicate
registration is allowed and keeps two entries). -/
def doubleRegistered : ListenerList :=
  (((ListenerList.init zeroedListenerArray false).addListener 5 1).2.addListener
    5 1).2

/-- Claim C8: pair removal removes exactly the first matching entry (the one
found by the search), shifts every later live entry left by one position
(keeping the live entries contiguous in `[0, count)`), decrements the count
and returns `true`; with no match it returns `false` and leaves the registry
unchanged.  The concrete consequence on the double-registered table: two
successive removals succeed, no `(5, 1)` entry remains, and a third removal
fails. -/
theorem removeListener_first_match_spec (l : ListenerList) (code : Int)
    (cb : Nat) (hlen : l.mNumListeners ≤ l.mListeners.length) :
    (l.searchListeners code cb = none → l.removeListener code cb = (false, l)) ∧
    (∀ k, l.searchListeners code cb = some k →
      (l.removeListener code cb).1 = true ∧
      (l.removeListener code cb).2.mNumListeners = l.mNumListeners - 1 ∧
      (∀ j, j < l.mNumListeners - 1 →
        (l.removeListener code cb).2.mListeners.getD j ⟨0, 0, false⟩ =
          if j < k then l.mListeners.getD j ⟨0, 0, false⟩
          else l.mListeners.getD (j + 1) ⟨0, 0, false⟩) ∧
      (l.removeListener code cb).2.mDefaultCallback = l.mDefaultCallback ∧
      (l.removeListener code cb).2.mDefaultCallbackEnabled =
        l.mDefaultCallbackEnabled) ∧
    ((doubleRegistered.removeListener 5 1).1 = true ∧
      ((doubleRegistered.removeListener 5 1).2.removeListener 5 1).1 = true ∧
      ((doubleRegistered.removeListener 5 1).2.removeListener 5 1).2.searchListeners
        5 1 = none ∧
      (((doubleRegistered.removeListener 5 1).2.removeListener
        5 1).2.removeListener 5 1).1 = false) := by
  refine ⟨?_, ?_, by decide⟩
  · intro hs
    unfold ListenerList.removeListener
    split_ifs with h0
    · rfl
    · rw [hs]
  · intro k hs
    have hkb := searchIdx_bounds _ _ _ _ hs
    rw [List.length_take] at hkb
    have hk : k < l.mNumListeners := by omega
    have h0 : (l.mNumListeners == 0) = false := by
      simp only [beq_eq_false_iff_ne, ne_eq]
      omega
    refine ⟨?_, ?_, ?_, ?_, ?_⟩
    · show (l.removeListener code cb).1 = true
      unfold ListenerList.removeListener
      rw [h0, hs]
      rfl
    · unfold ListenerList.removeListener
      rw [h0, hs]
      rfl
    · intro j hj
      unfold ListenerList.removeListener
      rw [h0, hs]
      show (shiftFrom (l.mNumListeners - 1 - k) l.mListeners k).getD j
          ⟨0, 0, false⟩ = _
      rw [shiftFrom_getD (l.mNumListeners - 1 - k) l.mListeners k j (by omega)]
      by_cases hjk : j < k
      · have hno : ¬(k ≤ j ∧ j < k + (l.mNumListeners - 1 - k)) := by omega
        rw [if_neg hno, if_pos hjk]
      · have hyes : k ≤ j ∧ j < k + (l.mNumListeners - 1 - k) := by omega
        rw [if_pos hyes, if_neg hjk]
    · unfold ListenerList.removeListener
      rw [h0, hs]
      rfl
    · unfold ListenerList.removeListener
      rw [h0, hs]
      rfl

/-- Witness for C8 on the double-registered table (the concrete scenario of
the claim: two successful removals, then failure). -/
theorem removeListener_first_match_spec_witness :
    doubleRegistered.mNumListeners ≤ doubleRegistered.mListeners.length ∧
    ((doubleRegistered.removeListener 5 1).1 = true ∧
      ((doubleRegistered.removeListener 5 1).2.removeListener 5 1).1 = true ∧
      ((doubleRegistered.removeListener 5 1).2.removeListener 5 1).2.searchListeners
        5 1 = none ∧
      (((doubleRegistered.removeListener 5 1).2.removeListener
        5 1).2.removeListener 5 1).1 = false) :=
  ⟨by decide, (removeListener_first_match_spec doubleRegistered 5 1 (by decide)).2.2⟩

/-- Claim C9: every public operation preserves the structural invariants:
queue counts stay within `[0, capacity]` with head and tail in
`[0, capacity)` (wrapping modulo the capacity) over fixed storage, and the
listener table count stays within `[0, kMaxListeners]` with the live entries
the contiguous prefix `[0, count)`. -/
theorem public_ops_preserve_invariants :
    (∀ (q : EventQueue) (c p : Int), q.Inv → (q.queueEvent c p).2.Inv) ∧
    (∀ q : EventQueue, q.Inv → (q.popEvent).2.Inv) ∧
    (∀ (l : ListenerList) (c : Int) (cb : Nat), l.Inv →
      (l.addListener c cb).2.Inv) ∧
    (∀ (l : ListenerList) (c : Int) (cb : Nat), l.Inv →
      (l.removeListener c cb).2.Inv) ∧
    (∀ (l : ListenerList) (cb : Nat), l.Inv → (l.removeListenerAll cb).2.Inv) ∧
    (∀ (l : ListenerList) (c : Int) (cb : Nat) (b : Bool), l.Inv →
      (l.enableListener c cb b).2.Inv) ∧
    (∀ (l : ListenerList) (cb : Nat), l.Inv → (l.setDefaultListener cb).2.Inv) ∧
    (∀ l : ListenerList, l.Inv → l.removeDefaultListener.Inv) ∧
    (∀ (l : ListenerList) (b : Bool), l.Inv → (l.enableDefaultListener b).Inv) ∧
    (∀ (em : EventManager) (c p : Int) (pri : EventPriority), em.Inv →
      (em.queueEvent c p pri).2.Inv) ∧
    (∀ em : EventManager, em.Inv → (em.processEvent).2.2.Inv) ∧
    (∀ em : EventManager, em.Inv → (em.processAllEvents).2.2.Inv) := by
  refine ⟨queueEvent_inv, popEvent_inv, addListener_inv, removeListener_inv,
    removeListenerAll_inv, enableListener_inv, setDefaultListener_inv,
    removeDefaultListener_inv, enableDefaultListener_inv, ?_,
    processEvent_inv, processAllEvents_inv⟩
  intro em c p pri h
  obtain ⟨h1, h2, h3⟩ := h
  cases pri with
  | kHighPriority => exact ⟨queueEvent_inv _ c p h1, h2, h3⟩
  | kLowPriority => exact ⟨h1, queueEvent_inv _ c p h2, h3⟩

/-- Witness for C9: the invariant holds for the fresh dispatcher and is
preserved across a concrete submit followed by `processEvent()`. -/
theorem public_ops_preserve_invariants_witness :
    freshManager.Inv ∧
    (freshManager.queueEvent 3 4 EventPriority.kHighPriority).2.Inv ∧
    ((freshManager.queueEvent 3 4 EventPriority.kHighPriority).2.processEvent).2.2.Inv :=
  ⟨by decide,
    public_ops_preserve_invariants.2.2.2.2.2.2.2.2.2.1 freshManager 3 4
      EventPriority.kHighPriority (by decide),
    public_ops_preserve_invariants.2.2.2.2.2.2.2.2.2.2.1
      (freshManager.queueEvent 3 4 EventPriority.kHighPriority).2 (by decide)⟩

/-- Claim C10: a dispatch never invokes a null callback — every invocation
in any `sendEvent` trace carries a non-null callback (the scan skips entries
with a null callback, and the default branch fires only when the default
callback is non-null) — and from the freshly constructed registry (where
`mDefaultCallback = 0` but the enabled flag and the array are uninitialized,
hence arbitrary), a dispatch returns 0 and invokes nothing, even if
`enableDefaultListener(true)` left the flag set. -/
theorem sendEvent_never_invokes_null :
    (∀ (l : ListenerList) (code param : Int) (x : Invocation),
      x ∈ (l.sendEvent code param).2 → x.1 ≠ 0) ∧
    (∀ (arr : List ListenerItem) (en : Bool) (code param : Int),
      (ListenerList.init arr en).sendEvent code param = (0, [])) ∧
    (∀ (arr : List ListenerItem) (en b : Bool) (code param : Int),
      ((ListenerList.init arr en).enableDefaultListener b).sendEvent code param
        = (0, [])) := by
  refine ⟨?_, ?_, ?_⟩
  · intro l code param x hx
    unfold ListenerList.sendEvent at hx
    by_cases h0 : ((sendScan (l.mListeners.take l.mNumListeners) code param).1
        == 0) = true
    · rw [if_pos h0] at hx
      by_cases hd : (l.mDefaultCallback != 0 && l.mDefaultCallbackEnabled)
          = true
      · rw [if_pos hd] at hx
        simp only [List.mem_singleton] at hx
        subst hx
        simp only [Bool.and_eq_true, bne_iff_ne, ne_eq] at hd
        exact hd.1
      · rw [if_neg hd] at hx
        simp at hx
    · rw [if_neg h0] at hx
      exact sendScan_no_null code param _ x hx
  · intro arr en code param
    rfl
  · intro arr en b code param
    rfl

/-- Witness for C10: in the one-listener registry, the single invocation of
a dispatch of code 42 carries the non-null callback 7. -/
theorem sendEvent_never_invokes_null_witness :
    ((7 : Nat), (42 : Int), (5 : Int)) ∈ (singleListener.sendEvent 42 5).2 ∧
    ((7 : Nat), (42 : Int), (5 : Int)).1 ≠ 0 :=
  ⟨by decide,
    sendEvent_never_invokes_null.1 singleListener 42 5 (7, 42, 5) (by decide)⟩
